import Mathlib

/-!
# Verification of the calculator mono-repo's calculation contract

Shallow embedding of the repository's calculation engine (backend
`AppService.calculator` in `apps/backend/src/app.service.ts` and frontend
`calculateLocally` / `fetchCalculation` in `apps/frontend/lib/calculate.ts`),
the frontend submit handler (`apps/frontend/app/page.tsx`), and the basic-auth
middleware (`AuthMiddleware.use`).

Modelling conventions:
* JavaScript numbers are idealised as exact rationals plus the non-finite
  sentinels `NaN`, `Infinity` and `-Infinity` (`JsNum`).  Operands fed to the
  engines are finite, hence modelled as `ℚ`.
* `x.toFixed(2)` followed by `Number(...)` is modelled as rounding half
  towards `+∞` at two decimal places on finite values, and as the identity on
  `NaN`/`±Infinity` (which is what `Number("NaN")`, `Number("Infinity")`
  give back).
* `Math.pow` is modelled exactly on integer exponents (with JavaScript's
  `0 ** negative = Infinity` rule); a fractional exponent generally yields an
  irrational double, which the rational model cannot represent, so it is
  mapped to the `NaN` sentinel.  Both engines pass `^` verbatim to the same
  power function, so this idealisation does not affect any cross-engine
  comparison, and every concrete claim about `^` uses integer exponents.
-/

namespace CalcRepo

/-- A JavaScript number: a finite value (idealised as an exact rational),
`NaN`, or a signed infinity. -/
inductive JsNum where
  | num (q : ℚ)
  | nan
  | inf (pos : Bool)
deriving DecidableEq

/-- JavaScript division `a / b` on finite operands: `a / 0` is `±Infinity`
for `a ≠ 0` and `NaN` for `a = 0`; otherwise the exact quotient. -/
def jsDiv (a b : ℚ) : JsNum :=
  if b = 0 then
    if a = 0 then .nan
    else if 0 < a then .inf true
    else .inf false
  else .num (a / b)

/-- Rounding at two decimal places, half towards `+∞` — the rounding
`Number.prototype.toFixed` prescribes ("if there are two such n, pick the
larger n"). -/
def round2 (q : ℚ) : ℚ := (⌊q * 100 + 1 / 2⌋ : ℚ) / 100

/-- `Number(x.toFixed(2))`: rounds a finite value at two decimal places and
maps `NaN` / `±Infinity` to themselves (`Number("NaN") = NaN`,
`Number("Infinity") = Infinity`). -/
def toFixed2 : JsNum → JsNum
  | .num q => .num (round2 q)
  | .nan => .nan
  | .inf p => .inf p

/-- `Math.pow(a, b)` on finite operands, idealised: exact on integer
exponents (with `0 ** negative = Infinity`), `NaN` on fractional exponents
(see the module comment). -/
def jsPow (a b : ℚ) : JsNum :=
  if b.den = 1 then
    if a = 0 ∧ b.num < 0 then .inf true
    else .num (a ^ b.num)
  else .nan

/-- The request body of the backend's POST endpoint
(`create-calculator.dto.ts`): two operands and an operator symbol.  The
`Operator` enum's cases are the literal strings `"+"`,`"-"`,`"*"`,`"/"`,`"^"`
(plus `UNKNOWN = ""`), so the operator is modelled as the string it is at
runtime. -/
structure CreateCalculatorDto where
  a : ℚ
  b : ℚ
  op : String
deriving DecidableEq

/-- Backend calculation engine, `AppService.calculator`
(`apps/backend/src/app.service.ts`): a switch over the operator; `/` is
`Number((a / b).toFixed(2))` with no zero-divisor guard; the default arm
returns `NaN`. -/
def AppService.calculator (dto : CreateCalculatorDto) : JsNum :=
  if dto.op = "+" then .num (dto.a + dto.b)
  else if dto.op = "-" then .num (dto.a - dto.b)
  else if dto.op = "*" then .num (dto.a * dto.b)
  else if dto.op = "/" then toFixed2 (jsDiv dto.a dto.b)
  else if dto.op = "^" then jsPow dto.a dto.b
  else .nan

/-- Frontend local calculation engine, `calculateLocally`
(`apps/frontend/lib/calculate.ts`): same switch, but `/` guards `b === 0`
with `NaN` and otherwise returns the unrounded quotient; the `"**"`, `"%"`
and default cases all return `NaN`. -/
def calculateLocally (a b : ℚ) (op : String) : JsNum :=
  if op = "+" then .num (a + b)
  else if op = "-" then .num (a - b)
  else if op = "*" then .num (a * b)
  else if op = "/" then (if b = 0 then .nan else .num (a / b))
  else if op = "^" then jsPow a b
  else .nan

/-- Outcome of the single `axios.post` in `fetchCalculation`: the promise
either resolves with a status code and a response body, or rejects (network
error, timeout, or axios itself throwing on a non-2xx status). -/
inductive RemoteOutcome where
  | resolved (status : ℕ) (data : JsNum)
  | rejected
deriving DecidableEq

/-- JavaScript truthiness of `process.env.NEXT_PUBLIC_API_URL`: an unset
variable and the empty string are both falsy. -/
def envTruthy : Option String → Bool
  | some s => s != ""
  | none => false

/-- Observable behaviour of one `fetchCalculation` call: the value returned
to the caller, and how many remote (`axios.post`) and local
(`calculateLocally`) attempts were made. -/
structure FetchTrace where
  result : JsNum
  remoteAttempts : ℕ
  localAttempts : ℕ
deriving DecidableEq

/-- Frontend fallback selector, `fetchCalculation`
(`apps/frontend/lib/calculate.ts`).  If the API URL is truthy it makes one
remote attempt; a resolved 2xx response is returned verbatim; a resolved
non-2xx response falls through to `calculateLocally`, and a rejection is
caught and handled by `calculateLocally`.  If the URL is not configured it
goes straight to `calculateLocally`.  Every branch returns a value — no
exception escapes (`calculateLocally` is total, so the `catch` arm cannot
itself throw). -/
def fetchCalculation (apiUrl : Option String) (remote : RemoteOutcome)
    (a b : ℚ) (op : String) : FetchTrace :=
  if envTruthy apiUrl then
    match remote with
    | .resolved st d =>
      if 200 ≤ st ∧ st < 300 then ⟨d, 1, 0⟩
      else ⟨calculateLocally a b op, 1, 1⟩
    | .rejected => ⟨calculateLocally a b op, 1, 1⟩
  else ⟨calculateLocally a b op, 0, 1⟩

/-- An operand input field of the page (`apps/frontend/app/page.tsx`):
either the empty string (initial state, or after clearing the input) or a
parsed number. -/
inductive FieldValue where
  | empty
  | val (x : ℚ)
deriving DecidableEq

/-- `Number(x)` applied to an operand field: `Number("") = 0`; a number maps
to itself. -/
def jsNumber : FieldValue → ℚ
  | .empty => 0
  | .val x => x

/-- What one click of the submit button does: the error message that ends up
in the `error` state, and the arguments `fetchCalculation` was invoked with
(`none` when it was not invoked at all). -/
structure ClickOutcome where
  error : Option String
  fetched : Option (ℚ × ℚ × String)
deriving DecidableEq

/-- Submit handler `onClickCalculate` (`apps/frontend/app/page.tsx`): if
either operand is the empty string it sets the error message and returns
early; otherwise it clears the error and calls
`fetchCalculation(Number(a), Number(b), op)` (which never rejects, so the
`catch` arm that would set a different error message is unreachable). -/
def onClickCalculate (a b : FieldValue) (op : String) : ClickOutcome :=
  if a = .empty ∨ b = .empty then ⟨some "Please enter both values", none⟩
  else ⟨none, some (jsNumber a, jsNumber b, op)⟩

/-!
## Basic-auth middleware (`auth.middleware.ts`, `AuthMiddleware.use`)

JavaScript strings are modelled as lists of characters (`JStr`), and the
base64 transport (`Buffer.from(x, 'base64').toString()` on the middleware
side, `Buffer.from(u + ':' + p).toString('base64')` on the client side) is
modelled byte-exactly on the ASCII fragment of UTF-8: a character is one
byte.  Every credential string the claims mention is ASCII.
-/

/-- A JavaScript string, as a list of its characters. -/
abbrev JStr := List Char

/-- The base64 alphabet, in sextet order. -/
def b64Alphabet : JStr :=
  "ABCDEFGHIJKLMNOPQRSTUVWXYZabcdefghijklmnopqrstuvwxyz0123456789+/".toList

/-- The alphabet character for a sextet value. -/
def sextetChar (n : ℕ) : Char := b64Alphabet.getD n 'A'

/-- The sextet value of an alphabet character; `none` for characters outside
the alphabet (including the `=` padding), which Node's decoder skips. -/
def charSextet (c : Char) : Option ℕ := b64Alphabet.findIdx? (· == c)

/-- Standard base64 encoding of a byte sequence, three bytes to four
characters, padded with `=`. -/
def b64encodeBytes : List ℕ → JStr
  | [] => []
  | [b1] => [sextetChar (b1 / 4), sextetChar (b1 % 4 * 16), '=', '=']
  | [b1, b2] => [sextetChar (b1 / 4), sextetChar (b1 % 4 * 16 + b2 / 16),
      sextetChar (b2 % 16 * 4), '=']
  | b1 :: b2 :: b3 :: rest =>
      sextetChar (b1 / 4) :: sextetChar (b1 % 4 * 16 + b2 / 16) ::
      sextetChar (b2 % 16 * 4 + b3 / 64) :: sextetChar (b3 % 64) ::
      b64encodeBytes rest

/-- Packs a sextet sequence back into bytes, four sextets to three bytes; a
trailing pair or triple of sextets yields one or two bytes, and a lone
trailing sextet is dropped (Node's behaviour). -/
def b64decodeSextets : List ℕ → List ℕ
  | s1 :: s2 :: s3 :: s4 :: rest =>
      (s1 * 4 + s2 / 16) :: (s2 % 16 * 16 + s3 / 4) :: (s3 % 4 * 64 + s4) ::
      b64decodeSextets rest
  | [s1, s2] => [s1 * 4 + s2 / 16]
  | [s1, s2, s3] => [s1 * 4 + s2 / 16, s2 % 16 * 16 + s3 / 4]
  | _ => []

/-- `Buffer.from(cs, 'base64')`: skip non-alphabet characters (`=`
included), then pack sextets into bytes. -/
def b64decodeChars (cs : JStr) : List ℕ :=
  b64decodeSextets (cs.filterMap charSextet)

/-- Bytes to string (ASCII fragment of `.toString()`). -/
def strOfBytes (bs : List ℕ) : JStr := bs.map Char.ofNat

/-- String to bytes (ASCII fragment of `Buffer.from`). -/
def bytesOfStr (s : JStr) : List ℕ := s.map Char.toNat

/-- `Buffer.from(s).toString('base64')`. -/
def b64encodeStr (s : JStr) : JStr := b64encodeBytes (bytesOfStr s)

/-- `Buffer.from(cs, 'base64').toString()`. -/
def b64decodeStr (cs : JStr) : JStr := strOfBytes (b64decodeChars cs)

/-- Every character of the string is ASCII (where the one-byte-per-character
model of the UTF-8 transport is exact). -/
def asciiStr (s : JStr) : Prop := ∀ c ∈ s, c.toNat < 128

instance (s : JStr) : Decidable (asciiStr s) :=
  inferInstanceAs (Decidable (∀ c ∈ s, c.toNat < 128))

/-- JavaScript `String.prototype.split(sep)` for a one-character separator:
splits at every occurrence, keeping empty fields, and yields `[""]` on the
empty string. -/
def splitOnChar (sep : Char) : JStr → List JStr
  | [] => [[]]
  | c :: rest =>
    if c = sep then [] :: splitOnChar sep rest
    else
      match splitOnChar sep rest with
      | [] => [[c]]
      | r :: rs => (c :: r) :: rs

/-- `value || default` on an optional environment variable: unset and the
empty string are both falsy. -/
def jsOrDefault (v : Option JStr) (d : JStr) : JStr :=
  match v with
  | some s => if s = [] then d else s
  | none => d

/-- The two environment variables `AuthMiddleware.use` reads. -/
structure AuthEnv where
  basicAuthUser : Option JStr
  basicAuthPass : Option JStr

/-- The environment with neither `BASIC_AUTH_USER` nor `BASIC_AUTH_PASS`
set. -/
def envUnset : AuthEnv := ⟨none, none⟩

/-- What the middleware did to the response: the `WWW-Authenticate` header
value (if set), the status written (if any), the body sent (if any), and
whether `next()` was called. -/
structure MiddlewareResult where
  wwwAuthenticate : Option JStr
  status : Option ℕ
  body : Option JStr
  nextCalled : Bool
deriving DecidableEq

/-- The challenge header value both rejection branches set. -/
def challenge : JStr := "Basic realm=\"Restricted Area\"".toList

/-- A 401 rejection: challenge header set, status 401, a message sent,
`next()` not called. -/
def unauthorized (msg : JStr) : MiddlewareResult :=
  ⟨some challenge, some 401, some msg, false⟩

/-- The pass-through outcome: `next()` called, nothing written. -/
def passedThrough : MiddlewareResult := ⟨none, none, none, true⟩

/-- `AuthMiddleware.use`.  A missing header, the empty header, or one not
starting with `"Basic "` (startsWith modelled as take-and-compare) is
rejected with `Authentication required`.  Otherwise the second
space-separated token is base64-decoded and split on every `:` (JavaScript
`split(':')`); destructuring `[username, password]` takes the first two
fields, `password` being `undefined` (`none`) when there is no colon.  A
mismatch against `BASIC_AUTH_USER || 'admin'` / `BASIC_AUTH_PASS || 'admin'`
is rejected with `Invalid credentials`; otherwise `next()` is called. -/
def AuthMiddleware.use (env : AuthEnv) (authorization : Option JStr) :
    MiddlewareResult :=
  match authorization with
  | none => unauthorized "Authentication required".toList
  | some auth =>
    if auth.take 6 ≠ "Basic ".toList then
      unauthorized "Authentication required".toList
    else
      let base64Credentials := (splitOnChar ' ' auth).getD 1 []
      let credentials := b64decodeStr base64Credentials
      let parts := splitOnChar ':' credentials
      let username := parts.getD 0 []
      let password? := parts.get? 1
      let validUsername := jsOrDefault env.basicAuthUser "admin".toList
      let validPassword := jsOrDefault env.basicAuthPass "admin".toList
      if username ≠ validUsername ∨ password? ≠ some validPassword then
        unauthorized "Invalid credentials".toList
      else passedThrough

/-- The credential test `AuthMiddleware.use` performs, extracted as a
predicate: the header is present, carries the `Basic ` scheme, and its
decoded second token's first two colon-separated fields equal the configured
username and password. -/
def credsMatch (env : AuthEnv) (authorization : Option JStr) : Prop :=
  match authorization with
  | none => False
  | some auth =>
    auth.take 6 = "Basic ".toList ∧
    (splitOnChar ':' (b64decodeStr ((splitOnChar ' ' auth).getD 1 []))).getD 0 []
      = jsOrDefault env.basicAuthUser "admin".toList ∧
    (splitOnChar ':' (b64decodeStr ((splitOnChar ' ' auth).getD 1 []))).get? 1
      = some (jsOrDefault env.basicAuthPass "admin".toList)

instance (env : AuthEnv) (authorization : Option JStr) :
    Decidable (credsMatch env authorization) := by
  unfold credsMatch
  match authorization with
  | none => exact inferInstanceAs (Decidable False)
  | some auth => exact inferInstanceAs (Decidable (_ ∧ _ ∧ _))

/-- The `Authorization` header a client presents for the pair `(u, p)`:
`"Basic " ++ base64(u + ":" + p)` — how the repository's middleware tests
build it (`Buffer.from('admin:admin').toString('base64')`). -/
def mkBasicAuthHeader (u p : JStr) : JStr :=
  "Basic ".toList ++ b64encodeStr (u ++ ':' :: p)

/-! ## Claims about the calculation engines -/

/-- C2: for all operands `a` and `b` with `b ≠ 0`, the backend engine's
division case returns `a / b` rounded to two decimal places — rounded
division, not exact mathematical division. -/
theorem claim_C2 (a b : ℚ) (h : b ≠ 0) :
    AppService.calculator ⟨a, b, "/"⟩ = .num (round2 (a / b)) := by
  simp [AppService.calculator, jsDiv, toFixed2, h]

/-- C2 witness: `compute(99, -11, '/')` returns `-9` (and the rounding is
strict: at `(1, 3, '/')` the result `33/100` differs from the exact
quotient `1/3`). -/
theorem claim_C2_witness :
    (-11 : ℚ) ≠ 0 ∧ AppService.calculator ⟨99, -11, "/"⟩ = .num (-9) ∧
      (3 : ℚ) ≠ 0 ∧ AppService.calculator ⟨1, 3, "/"⟩ = .num (33 / 100) ∧
      (33 : ℚ) / 100 ≠ 1 / 3 := by
  refine ⟨by norm_num, (claim_C2 99 (-11) (by norm_num)).trans ?_, by norm_num,
    (claim_C2 1 3 (by norm_num)).trans ?_, by norm_num⟩ <;> norm_num [round2]

/-- C4: for any operator outside `{+,-,*,/,^}` both engines return the
`NaN` sentinel.  (Neither engine can fault: both are total Lean functions;
the frontend's `"**"` and `"%"` switch cases fall through to the same
default as any other unknown symbol.) -/
theorem claim_C4 (a b : ℚ) (op : String)
    (h : op ∉ (["+", "-", "*", "/", "^"] : List String)) :
    AppService.calculator ⟨a, b, op⟩ = .nan ∧ calculateLocally a b op = .nan := by
  simp only [List.mem_cons, List.not_mem_nil, or_false, not_or] at h
  obtain ⟨h1, h2, h3, h4, h5⟩ := h
  constructor <;> simp [AppService.calculator, calculateLocally, h1, h2, h3, h4, h5]

/-- C4 witness: `compute(2, 3, '**')` and `compute(10, 2, '%')` both yield
the sentinel, in both engines. -/
theorem claim_C4_witness :
    ("**" : String) ∉ (["+", "-", "*", "/", "^"] : List String) ∧
    ("%" : String) ∉ (["+", "-", "*", "/", "^"] : List String) ∧
    AppService.calculator ⟨2, 3, "**"⟩ = .nan ∧ calculateLocally 2 3 "**" = .nan ∧
    AppService.calculator ⟨10, 2, "%"⟩ = .nan ∧ calculateLocally 10 2 "%" = .nan :=
  ⟨by decide, by decide,
    (claim_C4 2 3 "**" (by decide)).1, (claim_C4 2 3 "**" (by decide)).2,
    (claim_C4 10 2 "%" (by decide)).1, (claim_C4 10 2 "%" (by decide)).2⟩

/-- C5: on every pair of finite operands, both engines compute `+`, `-`,
`*` exactly and `^` as the shared power function; in particular
`compute(2, -2, '^') = 0.25`. -/
theorem claim_C5 (a b : ℚ) :
    AppService.calculator ⟨a, b, "+"⟩ = .num (a + b) ∧
    AppService.calculator ⟨a, b, "-"⟩ = .num (a - b) ∧
    AppService.calculator ⟨a, b, "*"⟩ = .num (a * b) ∧
    AppService.calculator ⟨a, b, "^"⟩ = jsPow a b ∧
    calculateLocally a b "+" = .num (a + b) ∧
    calculateLocally a b "-" = .num (a - b) ∧
    calculateLocally a b "*" = .num (a * b) ∧
    calculateLocally a b "^" = jsPow a b ∧
    jsPow 2 (-2) = .num (1 / 4) ∧ jsPow 2 3 = .num 8 := by
  refine ⟨?_, ?_, ?_, ?_, ?_, ?_, ?_, ?_, ?_, ?_⟩ <;>
    first
      | (simp [AppService.calculator, calculateLocally]; done)
      | norm_num [jsPow]

/-- C7: both engines are deterministic functions of exactly their three
inputs — identical inputs yield identical outputs.  (Purity itself is
witnessed by the embedding: both engines are definable as total functions
of `(a, b, op)` alone, with no state parameter.) -/
theorem claim_C7 (a a' b b' : ℚ) (op op' : String)
    (ha : a = a') (hb : b = b') (hop : op = op') :
    AppService.calculator ⟨a, b, op⟩ = AppService.calculator ⟨a', b', op'⟩ ∧
    calculateLocally a b op = calculateLocally a' b' op' := by
  subst ha; subst hb; subst hop; exact ⟨rfl, rfl⟩

/-- C7 witness: two evaluations at `(2, 3, '+')` agree. -/
theorem claim_C7_witness :
    AppService.calculator ⟨2, 3, "+"⟩ = AppService.calculator ⟨2, 3, "+"⟩ ∧
    calculateLocally 2 3 "+" = calculateLocally 2 3 "+" :=
  claim_C7 2 2 3 3 "+" "+" rfl rfl rfl

/-- C1 counterexample: the two engines are not identical.  At
`(a, b, op) = (1, 3, '/')` the backend rounds the quotient to `0.33 =
33/100`, while the frontend returns the exact quotient `1/3`. -/
theorem claim_C1_counterexample :
    AppService.calculator ⟨1, 3, "/"⟩ ≠ calculateLocally 1 3 "/" := by
  have hb : AppService.calculator ⟨1, 3, "/"⟩ = .num (33 / 100) := by
    simp [AppService.calculator, toFixed2, jsDiv]; norm_num [round2]
  have hf : calculateLocally 1 3 "/" = .num (1 / 3) := by
    simp [calculateLocally]
  rw [hb, hf]
  simp only [ne_eq, JsNum.num.injEq]
  norm_num

/-- C1 amended: the backend engine and the frontend local engine agree on
every operator except `/`; the division cases differ (the backend rounds to
two decimal places and leaves division by zero unguarded, the frontend
returns the exact quotient and `NaN` on a zero divisor). -/
theorem claim_C1_amended (a b : ℚ) (op : String) (h : op ≠ "/") :
    AppService.calculator ⟨a, b, op⟩ = calculateLocally a b op := by
  simp only [AppService.calculator, calculateLocally]
  split_ifs <;> simp_all

/-- C1 amended witness: the engines agree at `(2, 3, '+')`. -/
theorem claim_C1_amended_witness :
    ("+" : String) ≠ "/" ∧
    AppService.calculator ⟨2, 3, "+"⟩ = calculateLocally 2 3 "+" :=
  ⟨by decide, claim_C1_amended 2 3 "+" (by decide)⟩

/-- C3 counterexample: the backend does not surface division by zero as the
`NaN` sentinel — at `(1, 0, '/')` it returns `Infinity`
(`1 / 0 = Infinity` in JavaScript, and `Number(Infinity.toFixed(2)) =
Infinity`). -/
theorem claim_C3_counterexample :
    AppService.calculator ⟨1, 0, "/"⟩ = .inf true ∧
    AppService.calculator ⟨1, 0, "/"⟩ ≠ .nan := by
  have h : AppService.calculator ⟨1, 0, "/"⟩ = .inf true := by
    simp [AppService.calculator, toFixed2, jsDiv]
  exact ⟨h, by rw [h]; simp⟩

/-- C3 amended: on a zero divisor the frontend local engine returns the
`NaN` sentinel for every `a`, while the backend engine propagates the
JavaScript result unguarded: `NaN` only for `a = 0`, and `±Infinity` for
`a ≠ 0`. -/
theorem claim_C3_amended (a : ℚ) :
    calculateLocally a 0 "/" = .nan ∧
    AppService.calculator ⟨a, 0, "/"⟩ =
      (if a = 0 then .nan else if 0 < a then .inf true else .inf false) := by
  constructor
  · simp [calculateLocally]
  · simp only [AppService.calculator, jsDiv]
    split_ifs <;> simp_all [toFixed2]

/-- C6: the fallback selector returns the local engine's result whenever no
remote endpoint is configured, and whenever the single remote attempt fails
(rejection — network error, timeout, axios throwing on non-success — or a
resolved non-2xx status); it makes at most one remote attempt (exactly one
when an endpoint is configured) and at most one local attempt, and is a
total function — no exception reaches the caller. -/
theorem claim_C6 (apiUrl : Option String) (remote : RemoteOutcome)
    (a b : ℚ) (op : String) :
    (envTruthy apiUrl = false →
      fetchCalculation apiUrl remote a b op = ⟨calculateLocally a b op, 0, 1⟩) ∧
    (∀ st d, remote = .resolved st d → ¬(200 ≤ st ∧ st < 300) →
      (fetchCalculation apiUrl remote a b op).result = calculateLocally a b op) ∧
    (remote = .rejected →
      (fetchCalculation apiUrl remote a b op).result = calculateLocally a b op) ∧
    (fetchCalculation apiUrl remote a b op).remoteAttempts ≤ 1 ∧
    (fetchCalculation apiUrl remote a b op).localAttempts ≤ 1 ∧
    (envTruthy apiUrl = true →
      (fetchCalculation apiUrl remote a b op).remoteAttempts = 1) := by
  unfold fetchCalculation
  rcases henv : envTruthy apiUrl with _ | _ <;>
    rcases remote with ⟨st, d⟩ | _ <;>
      simp [henv] <;> split_ifs <;> simp_all

/-- C6 witness: with no endpoint configured, and with an endpoint whose
single attempt is rejected, `(5, 5, '+')` yields `10 = compute(5,5,'+')`;
a resolved non-success status also falls back locally. -/
theorem claim_C6_witness :
    fetchCalculation none .rejected 5 5 "+" = ⟨.num 10, 0, 1⟩ ∧
    (fetchCalculation (some "http://backend") .rejected 5 5 "+").result = .num 10 ∧
    (fetchCalculation (some "http://backend") (.resolved 500 (.num 0)) 5 5 "+").result
      = .num 10 := by
  have hlocal : calculateLocally 5 5 "+" = .num 10 := by
    simp [calculateLocally]; norm_num
  refine ⟨?_, ?_, ?_⟩
  · rw [(claim_C6 none .rejected 5 5 "+").1 rfl, hlocal]
  · rw [(claim_C6 (some "http://backend") .rejected 5 5 "+").2.2.1 rfl, hlocal]
  · rw [(claim_C6 (some "http://backend") (.resolved 500 (.num 0)) 5 5 "+").2.1
      500 (.num 0) rfl (by omega), hlocal]

/-- C9: in the refined frontend, a click with either operand empty sets the
error message `Please enter both values` and does not invoke
`fetchCalculation` — no remote or local computation happens. -/
theorem claim_C9 (a b : FieldValue) (op : String)
    (h : a = .empty ∨ b = .empty) :
    onClickCalculate a b op = ⟨some "Please enter both values", none⟩ := by
  simp [onClickCalculate, h]

/-- C9 witness: first operand empty, second filled. -/
theorem claim_C9_witness :
    ((FieldValue.empty = .empty ∨ FieldValue.val 1 = .empty) ∧
      onClickCalculate .empty (.val 1) "+" =
        ⟨some "Please enter both values", none⟩) :=
  ⟨Or.inl rfl, claim_C9 .empty (.val 1) "+" (Or.inl rfl)⟩

/-! ## Base64 transport lemmas -/

/-- Decoding inverts encoding on sextet values. -/
theorem charSextet_sextetChar : ∀ n < 64, charSextet (sextetChar n) = some n := by
  decide

/-- No encoder output character is a space (alphabet characters and `=`
only), so the middleware's `split(' ')` leaves the base64 token intact. -/
theorem b64encodeBytes_no_space : ∀ bs : List ℕ, ' ' ∉ b64encodeBytes bs := by
  have hs : ∀ n : ℕ, sextetChar n ≠ ' ' := by
    intro n
    rcases Nat.lt_or_ge n 64 with h | h
    · exact (show ∀ m < 64, sextetChar m ≠ ' ' by decide) n h
    · unfold sextetChar
      rw [List.getD_eq_default]
      · decide
      · calc b64Alphabet.length = 64 := by decide
          _ ≤ n := h
  intro bs
  induction bs using b64encodeBytes.induct with
  | case1 => simp [b64encodeBytes]
  | case2 b1 =>
    simp only [b64encodeBytes, List.mem_cons, List.not_mem_nil, or_false, not_or]
    exact ⟨Ne.symm (hs _), Ne.symm (hs _), by decide, by decide⟩
  | case3 b1 b2 =>
    simp only [b64encodeBytes, List.mem_cons, List.not_mem_nil, or_false, not_or]
    exact ⟨Ne.symm (hs _), Ne.symm (hs _), Ne.symm (hs _), by decide⟩
  | case4 b1 b2 b3 rest ih =>
    simp only [b64encodeBytes, List.mem_cons, not_or]
    exact ⟨Ne.symm (hs _), Ne.symm (hs _), Ne.symm (hs _), Ne.symm (hs _), ih⟩

/-- Byte-level roundtrip: Node's forgiving decoder inverts the encoder on
byte sequences. -/
theorem b64_roundtrip_bytes : ∀ bs : List ℕ, (∀ b ∈ bs, b < 256) →
    b64decodeSextets ((b64encodeBytes bs).filterMap charSextet) = bs := by
  have heq : charSextet '=' = none := by decide
  intro bs
  induction bs using b64encodeBytes.induct with
  | case1 => intro _; simp [b64encodeBytes, b64decodeSextets]
  | case2 b1 =>
    intro h
    have hb1 : b1 < 256 := h b1 (by simp)
    rw [b64encodeBytes, List.filterMap_cons, List.filterMap_cons,
      List.filterMap_cons, List.filterMap_cons,
      charSextet_sextetChar _ (by omega), charSextet_sextetChar _ (by omega),
      heq]
    simp only [List.filterMap_nil, b64decodeSextets, List.cons.injEq, and_true]
    omega
  | case3 b1 b2 =>
    intro h
    have hb1 : b1 < 256 := h b1 (by simp)
    have hb2 : b2 < 256 := h b2 (by simp)
    rw [b64encodeBytes, List.filterMap_cons, List.filterMap_cons,
      List.filterMap_cons, List.filterMap_cons,
      charSextet_sextetChar _ (by omega), charSextet_sextetChar _ (by omega),
      charSextet_sextetChar _ (by omega), heq]
    simp only [List.filterMap_nil, b64decodeSextets, List.cons.injEq, and_true]
    omega
  | case4 b1 b2 b3 rest ih =>
    intro h
    have hb1 : b1 < 256 := h b1 (by simp)
    have hb2 : b2 < 256 := h b2 (by simp)
    have hb3 : b3 < 256 := h b3 (by simp)
    have hrest : ∀ b ∈ rest, b < 256 := fun b hb => h b (by simp [hb])
    rw [b64encodeBytes, List.filterMap_cons, List.filterMap_cons,
      List.filterMap_cons, List.filterMap_cons,
      charSextet_sextetChar _ (by omega), charSextet_sextetChar _ (by omega),
      charSextet_sextetChar _ (by omega), charSextet_sextetChar _ (by omega)]
    show b64decodeSextets (_ :: _ :: _ :: _ :: _) = _
    rw [b64decodeSextets, ih hrest]
    simp only [List.cons.injEq, and_true]
    omega

/-- String-level roundtrip on the ASCII fragment:
`Buffer.from(Buffer.from(s).toString('base64'), 'base64').toString() = s`. -/
theorem b64_roundtrip_str (s : JStr) (h : asciiStr s) :
    b64decodeStr (b64encodeStr s) = s := by
  unfold b64decodeStr b64encodeStr b64decodeChars strOfBytes bytesOfStr
  rw [b64_roundtrip_bytes]
  · rw [List.map_map]
    exact List.map_id'' (fun c => Char.ofNat_toNat c) s
  · intro b hb
    simp only [List.mem_map] at hb
    obtain ⟨c, hc, rfl⟩ := hb
    exact Nat.lt_trans (h c hc) (by norm_num)

/-! ## `split` lemmas -/

/-- A string without the separator splits into the single field itself. -/
theorem splitOnChar_of_not_mem (sep : Char) (l : JStr) (h : sep ∉ l) :
    splitOnChar sep l = [l] := by
  induction l with
  | nil => rfl
  | cons c rest ih =>
    simp only [List.mem_cons, not_or] at h
    rw [splitOnChar, if_neg (fun hc => h.1 hc.symm), ih h.2]

/-- Splitting at the first separator occurrence: a separator-free chunk
before it becomes the first field. -/
theorem splitOnChar_append (sep : Char) (u v : JStr) (h : sep ∉ u) :
    splitOnChar sep (u ++ sep :: v) = u :: splitOnChar sep v := by
  induction u with
  | nil => simp [splitOnChar]
  | cons c u ih =>
    simp only [List.mem_cons, not_or] at h
    rw [List.cons_append, splitOnChar, if_neg (fun hc => h.1 hc.symm), ih h.2]

/-! ## Middleware behaviour lemmas -/

/-- A rejection outcome is observably distinct from the pass-through. -/
theorem unauthorized_ne_passedThrough (msg : JStr) :
    unauthorized msg ≠ passedThrough := by
  simp [unauthorized, passedThrough]

/-- Branch lemma: a header without the `Basic ` scheme is rejected. -/
theorem use_of_not_basic (env : AuthEnv) (auth : JStr)
    (h1 : auth.take 6 ≠ "Basic ".toList) :
    AuthMiddleware.use env (some auth)
      = unauthorized "Authentication required".toList := by
  simp only [AuthMiddleware.use]
  rw [if_pos h1]

/-- Branch lemma: a parsed credential mismatch is rejected. -/
theorem use_of_mismatch (env : AuthEnv) (auth : JStr)
    (h1 : auth.take 6 = "Basic ".toList)
    (h : (splitOnChar ':' (b64decodeStr ((splitOnChar ' ' auth).getD 1 []))).getD 0 []
          ≠ jsOrDefault env.basicAuthUser "admin".toList ∨
        (splitOnChar ':' (b64decodeStr ((splitOnChar ' ' auth).getD 1 []))).get? 1
          ≠ some (jsOrDefault env.basicAuthPass "admin".toList)) :
    AuthMiddleware.use env (some auth)
      = unauthorized "Invalid credentials".toList := by
  simp only [AuthMiddleware.use]
  rw [if_neg (not_not_intro h1), if_pos h]

/-- Branch lemma: matching parsed credentials pass through. -/
theorem use_of_match (env : AuthEnv) (auth : JStr)
    (h1 : auth.take 6 = "Basic ".toList)
    (h2 : (splitOnChar ':' (b64decodeStr ((splitOnChar ' ' auth).getD 1 []))).getD 0 []
          = jsOrDefault env.basicAuthUser "admin".toList)
    (h3 : (splitOnChar ':' (b64decodeStr ((splitOnChar ' ' auth).getD 1 []))).get? 1
          = some (jsOrDefault env.basicAuthPass "admin".toList)) :
    AuthMiddleware.use env (some auth) = passedThrough := by
  simp only [AuthMiddleware.use]
  rw [if_neg (not_not_intro h1), if_neg (by push_neg; exact ⟨h2, h3⟩)]

/-- Core behaviour of `AuthMiddleware.use`: it passes through exactly when
the credential test holds, and every rejection writes the challenge header
and a 401 status without calling `next()`. -/
theorem use_spec (env : AuthEnv) (auth? : Option JStr) :
    (AuthMiddleware.use env auth? = passedThrough ↔ credsMatch env auth?) ∧
    (¬ credsMatch env auth? →
      (AuthMiddleware.use env auth?).wwwAuthenticate = some challenge ∧
      (AuthMiddleware.use env auth?).status = some 401 ∧
      (AuthMiddleware.use env auth?).nextCalled = false) := by
  cases auth? with
  | none =>
    constructor
    · simp [AuthMiddleware.use, credsMatch, unauthorized, passedThrough]
    · intro _
      simp [AuthMiddleware.use, unauthorized]
  | some auth =>
    by_cases h1 : auth.take 6 = "Basic ".toList
    · by_cases h2 :
          (splitOnChar ':' (b64decodeStr ((splitOnChar ' ' auth).getD 1 []))).getD 0 []
            = jsOrDefault env.basicAuthUser "admin".toList
      · by_cases h3 :
            (splitOnChar ':' (b64decodeStr ((splitOnChar ' ' auth).getD 1 []))).get? 1
              = some (jsOrDefault env.basicAuthPass "admin".toList)
        · have hcm : credsMatch env (some auth) := by
            simp only [credsMatch]
            exact ⟨h1, h2, h3⟩
          have hu := use_of_match env auth h1 h2 h3
          exact ⟨by simp [hu, hcm], fun h => absurd hcm h⟩
        · have hcm : ¬ credsMatch env (some auth) := by
            simp only [credsMatch]
            exact fun h => h3 h.2.2
          have hu := use_of_mismatch env auth h1 (Or.inr h3)
          refine ⟨iff_of_false (by rw [hu]; exact unauthorized_ne_passedThrough _) hcm,
            fun _ => by rw [hu]; exact ⟨rfl, rfl, rfl⟩⟩
      · have hcm : ¬ credsMatch env (some auth) := by
          simp only [credsMatch]
          exact fun h => h2 h.2.1
        have hu := use_of_mismatch env auth h1 (Or.inl h2)
        refine ⟨iff_of_false (by rw [hu]; exact unauthorized_ne_passedThrough _) hcm,
          fun _ => by rw [hu]; exact ⟨rfl, rfl, rfl⟩⟩
    · have hcm : ¬ credsMatch env (some auth) := by
        simp only [credsMatch]
        exact fun h => h1 h.1
      have hu := use_of_not_basic env auth h1
      refine ⟨iff_of_false (by rw [hu]; exact unauthorized_ne_passedThrough _) hcm,
        fun _ => by rw [hu]; exact ⟨rfl, rfl, rfl⟩⟩

/-- The header built for the pair `(u, p)` starts with the `Basic ` scheme. -/
theorem take6_mkBasicAuthHeader (u p : JStr) :
    (mkBasicAuthHeader u p).take 6 = "Basic ".toList := rfl

/-- `split(' ')[1]` of the built header is the base64 token. -/
theorem splitSpace_mkBasicAuthHeader (u p : JStr) :
    (splitOnChar ' ' (mkBasicAuthHeader u p)).getD 1 []
      = b64encodeStr (u ++ ':' :: p) := by
  have hb : mkBasicAuthHeader u p
      = ['B', 'a', 's', 'i', 'c'] ++ ' ' :: b64encodeStr (u ++ ':' :: p) := rfl
  rw [hb, splitOnChar_append ' ' _ _ (by decide),
    splitOnChar_of_not_mem ' ' (b64encodeStr (u ++ ':' :: p))
      (b64encodeBytes_no_space _)]
  rfl

/-- The credential test on a built header, for unset environment variables:
it holds exactly when the first two colon-separated fields of `u + ":" + p`
are both `admin`. -/
theorem credsMatch_mkBasicAuthHeader (u p : JStr)
    (hu : asciiStr u) (hp : asciiStr p) :
    (credsMatch envUnset (some (mkBasicAuthHeader u p)) ↔
      ((splitOnChar ':' (u ++ ':' :: p)).getD 0 [] = "admin".toList ∧
       (splitOnChar ':' (u ++ ':' :: p)).get? 1 = some "admin".toList)) := by
  have hascii : asciiStr (u ++ ':' :: p) := by
    intro c hc
    rcases List.mem_append.mp hc with h | h
    · exact hu c h
    · rcases List.mem_cons.mp h with h | h
      · subst h; decide
      · exact hp c h
  simp only [credsMatch, take6_mkBasicAuthHeader, splitSpace_mkBasicAuthHeader,
    b64_roundtrip_str _ hascii, true_and]
  rfl

/-! ## Claims about the middleware -/

/-- C8: for every environment and request, the middleware rejects a missing
or non-matching credential with a 401 carrying the `WWW-Authenticate`
challenge and without calling `next()`, and passes a matching credential
through with `next()` called and nothing written (`passedThrough` is the
result with no header, no status and no body).  "Credentials" are what the
middleware itself extracts from the request: the first two colon-separated
fields of the decoded `Basic` token (`credsMatch`). -/
theorem claim_C8 (env : AuthEnv) (auth? : Option JStr) :
    (credsMatch env auth? →
      AuthMiddleware.use env auth? = passedThrough) ∧
    (¬ credsMatch env auth? →
      (AuthMiddleware.use env auth?).wwwAuthenticate = some challenge ∧
      (AuthMiddleware.use env auth?).status = some 401 ∧
      (AuthMiddleware.use env auth?).nextCalled = false) :=
  ⟨fun h => (use_spec env auth?).1.mpr h, (use_spec env auth?).2⟩

/-- C8 witness: with the default configuration, the header for
`admin:admin` passes through untouched, and a missing header is rejected
with 401 plus challenge. -/
theorem claim_C8_witness :
    credsMatch envUnset (some (mkBasicAuthHeader "admin".toList "admin".toList)) ∧
    AuthMiddleware.use envUnset
      (some (mkBasicAuthHeader "admin".toList "admin".toList)) = passedThrough ∧
    ¬ credsMatch envUnset none ∧
    (AuthMiddleware.use envUnset none).wwwAuthenticate = some challenge ∧
    (AuthMiddleware.use envUnset none).status = some 401 ∧
    (AuthMiddleware.use envUnset none).nextCalled = false := by
  refine ⟨by decide, (claim_C8 envUnset _).1 (by decide), by decide, ?_, ?_, ?_⟩
  · exact ((claim_C8 envUnset none).2 (by decide)).1
  · exact ((claim_C8 envUnset none).2 (by decide)).2.1
  · exact ((claim_C8 envUnset none).2 (by decide)).2.2

/-- C10 counterexample: with the environment unset, the middleware also
accepts the pair username `admin`, password `admin:x` — the decoded string
`admin:admin:x` is split on every colon and only the first two fields are
compared — so `admin`/`admin` is not the only accepted pair. -/
theorem claim_C10_counterexample :
    (AuthMiddleware.use envUnset
      (some (mkBasicAuthHeader "admin".toList "admin:x".toList))).nextCalled = true ∧
    "admin:x".toList ≠ "admin".toList := by
  constructor
  · decide
  · decide

/-- C10 amended: with both environment variables unset, a presented ASCII
pair `(u, p)` is accepted iff the first two colon-separated fields of
`u + ":" + p` are both `admin`; in particular, among colon-free pairs
exactly `admin`/`admin` is accepted and every other pair is rejected with a
401. -/
theorem claim_C10_amended (u p : JStr) (hu : asciiStr u) (hp : asciiStr p) :
    ((AuthMiddleware.use envUnset (some (mkBasicAuthHeader u p))).nextCalled = true ↔
      ((splitOnChar ':' (u ++ ':' :: p)).getD 0 [] = "admin".toList ∧
        (splitOnChar ':' (u ++ ':' :: p)).get? 1 = some "admin".toList)) ∧
    ((':' ∉ u ∧ ':' ∉ p) →
      ((AuthMiddleware.use envUnset (some (mkBasicAuthHeader u p))).nextCalled = true ↔
        (u = "admin".toList ∧ p = "admin".toList))) ∧
    ((AuthMiddleware.use envUnset (some (mkBasicAuthHeader u p))).nextCalled ≠ true →
      (AuthMiddleware.use envUnset (some (mkBasicAuthHeader u p))).status = some 401 ∧
      (AuthMiddleware.use envUnset (some (mkBasicAuthHeader u p))).wwwAuthenticate
        = some challenge) := by
  have hspec := use_spec envUnset (some (mkBasicAuthHeader u p))
  have hcm := credsMatch_mkBasicAuthHeader u p hu hp
  have hnext : (AuthMiddleware.use envUnset (some (mkBasicAuthHeader u p))).nextCalled
      = true ↔ credsMatch envUnset (some (mkBasicAuthHeader u p)) := by
    constructor
    · intro h
      by_contra hc
      rw [(hspec.2 hc).2.2] at h
      exact Bool.false_ne_true h
    · intro h
      rw [hspec.1.mpr h]
      rfl
  refine ⟨hnext.trans hcm, fun hfree => ?_, fun hrej => ?_⟩
  · rw [hnext.trans hcm, splitOnChar_append ':' u p hfree.1,
      splitOnChar_of_not_mem ':' p hfree.2]
    constructor
    · intro ⟨ha, hb⟩
      exact ⟨ha, by injection hb⟩
    · intro ⟨ha, hb⟩
      refine ⟨ha, ?_⟩
      rw [hb]
      rfl
  · have hc : ¬ credsMatch envUnset (some (mkBasicAuthHeader u p)) := by
      intro h
      exact hrej (hnext.mpr h)
    exact ⟨(hspec.2 hc).2.1, (hspec.2 hc).1⟩

/-- C10 amended witness: `admin`/`admin` (ASCII, colon-free) is accepted. -/
theorem claim_C10_amended_witness :
    asciiStr "admin".toList ∧
    (AuthMiddleware.use envUnset
      (some (mkBasicAuthHeader "admin".toList "admin".toList))).nextCalled = true :=
  ⟨by decide,
    ((claim_C10_amended "admin".toList "admin".toList (by decide) (by decide)).2.1
      (by decide)).mpr ⟨rfl, rfl⟩⟩

end CalcRepo
